import Mathlib

/-!
Verification of the revision-scheduling core of the ReviseFlow backend.

The JavaScript sources are shallowly embedded as follows.

* Instants (JS `Date` values) are integers: milliseconds since the Unix epoch
  (`Int`), exactly the internal representation of a JS `Date`.  JS time has no
  leap seconds, so a UTC calendar day is exactly 86400000 ms.
* Timezones are modelled as fixed UTC offsets in milliseconds, wrapped in
  `Option`: `some off` is a valid IANA identifier whose zone has the fixed
  offset `off` (the zones exercised by the spec, `Asia/Kolkata` = +05:30 and
  `UTC`, observe no DST), and `none` is an unknown/malformed identifier, which
  makes `toLocaleString` throw a `RangeError`.
* The zone the Node.js process itself runs in (the zone used by local `Date`
  accessors such as `setHours`/`getHours` and by `new Date(string)` parsing)
  is an ambient parameter `srv : Int`, again a fixed offset in milliseconds.
* Fallible JS code (thrown exceptions, rejected promises) returns
  `Except String _`.
* Mongoose subdocument arrays are `List`s; `ObjectId`s are `Nat`s.  A
  revision-id argument arriving over HTTP is an `Option Nat`: `some n` is a
  well-formed id, `none` a malformed string, which survives the
  `ObjectId.isValid` guard as a raw string and can never equal a stored
  `ObjectId`, so `revisions.id(...)` yields `null` for it.
-/

namespace ReviseFlow

/-! ## Time primitives -/

def msPerSecond : Int := 1000

def msPerHour : Int := 3600000

def msPerDay : Int := 86400000

/-- Floor an instant to a multiple of `unit` (Lean's `/` on `Int` rounds
toward negative infinity for a positive divisor, matching how JS calendar
fields floor the timeline). -/
def floorToUnit (unit t : Int) : Int := (t / unit) * unit

/-! ## Timezone resolver (`src/utils/timezoneUtils.js`)

The idiom used throughout the source is
`new Date(d.toLocaleString('en-US', ...))` with a `timeZone` option:
`toLocaleString` renders the wall-clock fields of the instant in the target
zone (to second precision — milliseconds are not rendered) and `new Date`
re-parses those fields as wall-clock time in the server's own zone `srv`.
For fixed offsets the composite sends `t` to `floorToUnit 1000 (t + off) - srv`.
An unknown zone identifier makes `toLocaleString` throw a `RangeError`. -/

def invalidTimeZoneMsg : String := "RangeError: invalid time zone"

def toLocaleStringReparse (srv t : Int) (tz : Option Int) : Except String Int :=
  match tz with
  | none => .error invalidTimeZoneMsg
  | some off => .ok (floorToUnit msPerSecond (t + off) - srv)

/-- Semantics of `d.setHours(0, 0, 0, 0)` on a server in the fixed-offset zone `srv`:
floor the server-local wall clock to local midnight. -/
def setHoursZero (srv t : Int) : Int := floorToUnit msPerDay (t + srv) - srv

/-- Model of `getCurrentTimeInTimezone(tz)` at wall-clock instant `now`. -/
def getCurrentTimeInTimezone (srv now : Int) (tz : Option Int) : Except String Int :=
  toLocaleStringReparse srv now tz

/-- Semantics of `d.getHours()` on a server in zone `srv`: the server-local hour of day,
always in `0..23` (Lean's `%` on `Int` is nonnegative for a positive
modulus, matching JS calendar fields). -/
def getHoursLocal (srv t : Int) : Int := ((t + srv) % msPerDay) / msPerHour

/-- Model of `getDayBoundsInTimezone(date, timezone)`: reinterpret the instant through
`toLocaleString`, then take server-local `setHours(0,0,0,0)` and
`setHours(23,59,59,999)` of the result. -/
def getDayBoundsInTimezone (srv date : Int) (tz : Option Int) :
    Except String (Int × Int) := do
  let userDate ← toLocaleStringReparse srv date tz
  let startOfDay := setHoursZero srv userDate
  let endOfDay := startOfDay + (msPerDay - 1)
  pure (startOfDay, endOfDay)

/-- Model of `isTargetHourInTimezone(targetHour, timezone)` at wall-clock `now`. -/
def isTargetHourInTimezone (srv : Int) (targetHour : Int) (tz : Option Int)
    (now : Int) : Except String Bool := do
  let currentTime ← getCurrentTimeInTimezone srv now tz
  pure (getHoursLocal srv currentTime == targetHour)

/-- Modelled from the spec: `dayBounds(instant, timezone)` as §4.1 words it —
the instants of local `00:00:00.000` and local `23:59:59.999` on the local
calendar date containing the instant, in the absolute frame of the input. -/
def specDayBounds (t off : Int) : Int × Int :=
  (floorToUnit msPerDay (t + off) - off,
   floorToUnit msPerDay (t + off) - off + (msPerDay - 1))

/-! ## Data model (`src/models/Task.js`) -/

inductive RevStatus
  | pending
  | done
  | skipped
  | postponed
  deriving DecidableEq

structure Revision where
  id : Nat
  scheduledDate : Int
  status : RevStatus
  completedAt : Option Int
  sentReminder : Bool := false
  deriving DecidableEq

structure Task where
  id : Nat
  user : Nat
  title : String
  notes : String
  completedDate : Int
  revisions : List Revision
  isArchived : Bool
  createdAt : Int
  deriving DecidableEq

/-- The `revisions` path validator: every revision's `scheduledDate` must be
`>=` the task's `completedDate`. -/
def revisionsValid (t : Task) : Bool :=
  t.revisions.all fun r => decide (t.completedDate ≤ r.scheduledDate)

/-- Semantics of `d.setDate(d.getDate() + n)` on a server in a fixed-offset zone: advance
the local calendar date by `n` days keeping the local time of day, i.e. shift
the instant by exactly `n` whole days (fixed offset: every local day is
86400000 ms). -/
def setDateAddDays (t : Int) (n : Int) : Int := t + n * msPerDay

/-- Model of `addDefaultRevisions()`: replace `revisions` with two fresh pending
revisions on the 3rd and 7th day after `completedDate` (fresh subdocument ids
are modelled as 0 and 1). -/
def addDefaultRevisions (t : Task) : Task :=
  { t with revisions :=
      [ { id := 0, scheduledDate := setDateAddDays t.completedDate 3,
          status := .pending, completedAt := none },
        { id := 1, scheduledDate := setDateAddDays t.completedDate 7,
          status := .pending, completedAt := none } ] }

/-- The `pre('save')` hook: add the default revisions when the document is
new and has no revisions. -/
def preSaveAddDefaults (isNew : Bool) (t : Task) : Task :=
  if isNew ∧ t.revisions.isEmpty then addDefaultRevisions t else t

inductive SaveError
  | validationError
  deriving DecidableEq

/-- Model of `task.save()`: run the `pre('save')` middleware, then the schema
validators; a failed validation rejects with a `ValidationError` and nothing
is persisted, otherwise the (possibly hook-extended) document is written. -/
def saveTask (isNew : Bool) (t : Task) : Except SaveError Task :=
  let t' := preSaveAddDefaults isNew t
  if revisionsValid t' then .ok t' else .error .validationError

/-! ## Revision state machine (instance methods of `TaskSchema`)

The methods mutate the one subdocument returned by `this.revisions.id(...)`
(the first array entry with that `_id`) in place; `updateFirstRevision`
models exactly that in-place mutation of the first match. -/

def updateFirstRevision (revs : List Revision) (n : Nat)
    (f : Revision → Revision) : List Revision :=
  match revs with
  | [] => []
  | r :: rest => if r.id == n then f r :: rest else r :: updateFirstRevision rest n f

/-- Lookup `this.revisions.id(objectId)` after the `ObjectId.isValid` conversion
guard; a malformed id (`none`) never matches a stored `ObjectId`. -/
def lookupRevision (t : Task) (rid : Option Nat) : Option Revision :=
  match rid with
  | none => none
  | some n => t.revisions.find? fun r => r.id == n

/-- Model of `updateRevisionStatus(revisionId, status)` at wall-clock `now`
(`new Date()` inside the method): set the status; set `completedAt = now`
when the status is `done`, clear it otherwise.  Returns `false` without
touching the document when the revision is not found. -/
def updateRevisionStatus (t : Task) (rid : Option Nat) (status : RevStatus)
    (now : Int) : Bool × Task :=
  match rid with
  | none => (false, t)
  | some n =>
    match t.revisions.find? (fun r => r.id == n) with
    | none => (false, t)
    | some _ =>
      (true,
       { t with revisions := updateFirstRevision t.revisions n fun r =>
          { r with status := status,
                   completedAt := if status = .done then some now else none } })

structure PostponeResult where
  success : Bool
  newDate : Int
  nextInterval : Int
  deriving DecidableEq

/-- Semantics of `tomorrow.setUTCDate(currentScheduledDate.getUTCDate() + 1)`: advance the
UTC calendar date by one (JS normalizes a month overflow), keeping the time
of day — in epoch milliseconds, add exactly one day. -/
def setUTCDatePlusOne (t : Int) : Int := t + msPerDay

/-- Semantics of `tomorrow.setUTCHours(0, 0, 0, 0)`: floor to UTC midnight. -/
def setUTCHoursZero (t : Int) : Int := floorToUnit msPerDay t

/-- Model of `postponeRevision(revisionId)` at wall-clock `now`.  The method has the
clock available but never reads it: the new date is derived purely from the
revision's current `scheduledDate` — one UTC day later, at UTC midnight —
and the status is reset to `pending`.  Returns `false` (here `none`) without
touching the document when the revision is not found, and
`success / newDate / nextInterval` to the caller otherwise. -/
def postponeRevision (t : Task) (rid : Option Nat) (now : Int) :
    Option PostponeResult × Task :=
  match rid with
  | none => (none, t)
  | some n =>
    match t.revisions.find? (fun r => r.id == n) with
    | none => (none, t)
    | some rev =>
      let tomorrow := setUTCHoursZero (setUTCDatePlusOne rev.scheduledDate)
      (some { success := true, newDate := tomorrow, nextInterval := 1 },
       { t with revisions := updateFirstRevision t.revisions n fun r =>
          { r with scheduledDate := tomorrow, status := .pending } })

/-! ## Status-transition endpoint (`controllers/taskController.js`,
`markRevisionComplete`).  The task has already been found by owner; the
request body's `status` is `none` when absent (the code then defaults to
`done`). -/

inductive ApiResponse
  | postponedOk (t : Task) (newDate : Int)
  | updatedOk (t : Task)
  | revisionNotFound
  | saveFailed
  deriving DecidableEq

def markRevisionCompleteEndpoint (t : Task) (rid : Option Nat)
    (status : Option RevStatus) (now : Int) : ApiResponse :=
  if status = some .postponed then
    match postponeRevision t rid now with
    | (none, _) => .revisionNotFound
    | (some res, t') =>
      match saveTask false t' with
      | .error _ => .saveFailed
      | .ok u => .postponedOk u res.newDate
  else
    match updateRevisionStatus t rid (status.getD .done) now with
    | (false, _) => .revisionNotFound
    | (true, t') =>
      match saveTask false t' with
      | .error _ => .saveFailed
      | .ok u => .updatedOk u

/-! ## Due-set resolver (`services/cronService.js`, `getTodaysRevisions`) -/

structure DueRevision where
  taskId : Nat
  taskTitle : String
  taskDescription : String
  taskCreatedAt : Int
  revisionId : Nat
  revisionDay : Int
  scheduledDate : Int
  isFirstRevision : Bool
  deriving DecidableEq

/-- The `$match` stage on an unwound revision: scheduled inside the day
bounds (inclusive) and still `pending`. -/
def revisionDueFilter (startOfDay endOfDay : Int) (r : Revision) : Bool :=
  decide (startOfDay ≤ r.scheduledDate) && decide (r.scheduledDate ≤ endOfDay)
    && (r.status == .pending)

/-- The aggregation pipeline: match the user's non-archived tasks, unwind
their revisions, and keep the pairs passing `revisionDueFilter`. -/
def aggregateDueRevisions (tasks : List Task) (userId : Nat)
    (startOfDay endOfDay : Int) : List (Task × Revision) :=
  (tasks.filter fun t => (t.user == userId) && (t.isArchived == false)).flatMap
    fun t => (t.revisions.filter (revisionDueFilter startOfDay endOfDay)).map
      fun r => (t, r)

/-- Computation `Math.ceil((revisionDate - completedDate) / (1000 * 60 * 60 * 24))`:
the ceiling of the elapsed time in days (`Int` ceiling division, written as
the negated floor division of the negation). -/
def daysDiff (completedDate revisionDate : Int) : Int :=
  -((completedDate - revisionDate) / msPerDay)

/-- The spaced-repetition bucket for a day difference. -/
def revisionDayBucket (d : Int) : Int :=
  if d ≤ 3 then 1
  else if d ≤ 7 then 2
  else if d ≤ 14 then 3
  else if d ≤ 30 then 4
  else 5

/-- The per-pair projection of the cron path: derive `revisionDay` from the
elapsed days and flag `isFirstRevision`. -/
def toDueRevision (t : Task) (r : Revision) : DueRevision :=
  let day := revisionDayBucket (daysDiff t.completedDate r.scheduledDate)
  { taskId := t.id
    taskTitle := t.title
    taskDescription := t.notes
    taskCreatedAt := t.createdAt
    revisionId := r.id
    revisionDay := day
    scheduledDate := r.scheduledDate
    isFirstRevision := day == 1 }

/-- The body of `getTodaysRevisions` up to its `catch`: compute the user's
day bounds for `now`, run the aggregation (the awaited database call is the
`fetch` parameter, which may reject), and project each pair. -/
def getTodaysRevisionsBody (srv now : Int) (tz : Option Int)
    (fetch : Int → Int → Except String (List (Task × Revision))) :
    Except String (List DueRevision) := do
  let bounds ← getDayBoundsInTimezone srv now tz
  let pairs ← fetch bounds.1 bounds.2
  pure (pairs.map fun p => toDueRevision p.1 p.2)

/-- Model of `getTodaysRevisions`: any error thrown inside the body is caught, logged,
and turned into the empty list. -/
def getTodaysRevisions (srv now : Int) (tz : Option Int)
    (fetch : Int → Int → Except String (List (Task × Revision))) :
    List DueRevision :=
  match getTodaysRevisionsBody srv now tz fetch with
  | .ok l => l
  | .error _ => []

/-- The canonical instantiation of `fetch`: the Mongo aggregation over the
task store succeeding normally. -/
def storeFetch (tasks : List Task) (userId : Nat) :
    Int → Int → Except String (List (Task × Revision)) :=
  fun s e => .ok (aggregateDueRevisions tasks userId s e)

/-! ## Daily reminder orchestrator (`services/cronService.js`,
`sendDailyReminders`) -/

/-- The fields of a user consumed by the cron path.  `timezone` is
`none` when the field is unset (the code then falls back to
`'Asia/Kolkata'`), and `some tz` when set — where `tz` itself is `none`
for a stored identifier that is not a real zone. -/
structure CronUser where
  id : Nat
  isVerified : Bool
  emailNotifications : Bool
  timezone : Option (Option Int)
  deriving DecidableEq

/-- The offset of the configured default zone, `'Asia/Kolkata'` (+05:30). -/
def istOffsetMs : Int := 19800000

inductive UserOutcome
  | notTargetHour
  | emptySkip
  | sent
  | errored
  deriving DecidableEq

/-- One iteration of the user loop (the body of the per-user `try`):
check the local hour (a throw here is caught by the per-user `catch`),
resolve the due set, skip when it is empty, otherwise dispatch (a rejected
dispatch is likewise caught). -/
def processUser (srv now : Int)
    (fetch : CronUser → Int → Int → Except String (List (Task × Revision)))
    (dispatch : CronUser → List DueRevision → Except String Unit)
    (u : CronUser) : UserOutcome :=
  let userTimezone := u.timezone.getD (some istOffsetMs)
  match isTargetHourInTimezone srv 6 userTimezone now with
  | .error _ => .errored
  | .ok false => .notTargetHour
  | .ok true =>
    let todays := getTodaysRevisions srv now userTimezone (fetch u)
    if todays.isEmpty then .emptySkip
    else
      match dispatch u todays with
      | .error _ => .errored
      | .ok _ => .sent

/-- The observable result of one run: the two counters the code keeps, plus
the ordered trace of users to whom a reminder e-mail was actually handed to
the dispatcher successfully. -/
structure RunResult where
  remindersSent : Nat
  errors : Nat
  sentTo : List Nat
  deriving DecidableEq

def runUsers (srv now : Int)
    (fetch : CronUser → Int → Int → Except String (List (Task × Revision)))
    (dispatch : CronUser → List DueRevision → Except String Unit) :
    List CronUser → RunResult
  | [] => { remindersSent := 0, errors := 0, sentTo := [] }
  | u :: rest =>
    let res := runUsers srv now fetch dispatch rest
    match processUser srv now fetch dispatch u with
    | .sent => { res with remindersSent := res.remindersSent + 1,
                          sentTo := u.id :: res.sentTo }
    | .errored => { res with errors := res.errors + 1 }
    | _ => res

/-- The `User.find` query of `sendDailyReminders`: verified users with email
notifications enabled. -/
def eligibleUsers (users : List CronUser) : List CronUser :=
  users.filter fun u => u.isVerified && u.emailNotifications

/-- Model of `sendDailyReminders` over the whole user population. -/
def sendDailyReminders (srv now : Int)
    (fetch : CronUser → Int → Int → Except String (List (Task × Revision)))
    (dispatch : CronUser → List DueRevision → Except String Unit)
    (users : List CronUser) : RunResult :=
  runUsers srv now fetch dispatch (eligibleUsers users)

/-! ## Helper lemmas -/

theorem find?_split {α : Type} (p : α → Bool) (l : List α) (a : α)
    (h : l.find? p = some a) :
    ∃ l₁ l₂, l = l₁ ++ a :: l₂ ∧ (∀ x ∈ l₁, p x = false) ∧ p a = true := by
  induction l with
  | nil => simp at h
  | cons x xs ih =>
    cases hx : p x with
    | false =>
      simp only [List.find?, hx, cond_false] at h
      obtain ⟨l₁, l₂, hl, hall, hpa⟩ := ih h
      exact ⟨x :: l₁, l₂, by simp [hl], by
        intro y hy
        rcases List.mem_cons.mp hy with rfl | hy'
        · exact hx
        · exact hall y hy', hpa⟩
    | true =>
      simp only [List.find?, hx, cond_true, Option.some.injEq] at h
      exact ⟨[], xs, by simp [h], by simp, h ▸ hx⟩

theorem updateFirst_of_split (l₁ l₂ : List Revision) (r : Revision) (n : Nat)
    (f : Revision → Revision)
    (hall : ∀ x ∈ l₁, (x.id == n) = false) (hr : (r.id == n) = true) :
    updateFirstRevision (l₁ ++ r :: l₂) n f = l₁ ++ f r :: l₂ := by
  induction l₁ with
  | nil => simp [updateFirstRevision, hr]
  | cons x xs ih =>
    have hx := hall x (by simp)
    simp [updateFirstRevision, hx, ih fun y hy => hall y (by simp [hy])]

theorem find?_id_append (l₁ l₂ : List Revision) (r : Revision) (n : Nat)
    (hall : ∀ x ∈ l₁, (x.id == n) = false) (hr : (r.id == n) = true) :
    (l₁ ++ r :: l₂).find? (fun x => x.id == n) = some r := by
  rw [List.find?_append]
  have h₁ : l₁.find? (fun x => x.id == n) = none :=
    List.find?_eq_none.mpr fun x hx => by simp [hall x hx]
  simp [h₁, List.find?, hr]

theorem floorToUnit_second_then_day (x : Int) :
    floorToUnit msPerDay (floorToUnit msPerSecond x) = floorToUnit msPerDay x := by
  simp only [floorToUnit, msPerDay, msPerSecond]
  omega

theorem runUsers_append (srv now : Int)
    (fetch : CronUser → Int → Int → Except String (List (Task × Revision)))
    (dispatch : CronUser → List DueRevision → Except String Unit)
    (l₁ l₂ : List CronUser) :
    runUsers srv now fetch dispatch (l₁ ++ l₂) =
      { remindersSent := (runUsers srv now fetch dispatch l₁).remindersSent +
          (runUsers srv now fetch dispatch l₂).remindersSent
        errors := (runUsers srv now fetch dispatch l₁).errors +
          (runUsers srv now fetch dispatch l₂).errors
        sentTo := (runUsers srv now fetch dispatch l₁).sentTo ++
          (runUsers srv now fetch dispatch l₂).sentTo } := by
  induction l₁ with
  | nil => simp [runUsers]
  | cons u us ih =>
    cases h : processUser srv now fetch dispatch u <;>
      simp [runUsers, h, ih, RunResult.mk.injEq] <;> omega

theorem runUsers_all_sent (srv now : Int)
    (fetch : CronUser → Int → Int → Except String (List (Task × Revision)))
    (dispatch : CronUser → List DueRevision → Except String Unit)
    (l : List CronUser)
    (h : ∀ u ∈ l, processUser srv now fetch dispatch u = .sent) :
    runUsers srv now fetch dispatch l =
      { remindersSent := l.length, errors := 0, sentTo := l.map fun u => u.id } := by
  induction l with
  | nil => simp [runUsers]
  | cons u us ih =>
    have hu := h u (by simp)
    simp [runUsers, hu, ih fun v hv => h v (by simp [hv])]

/-! ## Claim theorems -/

theorem setUTCDay_next (d : Int) :
    setUTCHoursZero (setUTCDatePlusOne d) = floorToUnit msPerDay d + msPerDay := by
  simp only [setUTCHoursZero, setUTCDatePlusOne, floorToUnit, msPerDay]
  omega

/-- C1: `postponeRevision` moves the targeted revision to UTC midnight of
the UTC calendar day after its current `scheduledDate` (`startOfUTCDay(d)`
plus one day), resets its status to `pending`, and returns the new date to
the caller; the method never reads the wall clock, so invoking it at any two
instants produces identical results. -/
theorem postpone_anchors_on_scheduled_date (t : Task) (n : Nat) (r : Revision)
    (now now' : Int)
    (hfind : t.revisions.find? (fun x => x.id == n) = some r) :
    (postponeRevision t (some n) now).1 =
      some { success := true
             newDate := floorToUnit msPerDay r.scheduledDate + msPerDay
             nextInterval := 1 }
    ∧ (postponeRevision t (some n) now).2.revisions.find? (fun x => x.id == n) =
        some { r with
                 scheduledDate := floorToUnit msPerDay r.scheduledDate + msPerDay
                 status := .pending }
    ∧ postponeRevision t (some n) now = postponeRevision t (some n) now' := by
  obtain ⟨l₁, l₂, hsplit, hall, hpn⟩ := find?_split _ _ _ hfind
  refine ⟨by simp [postponeRevision, hfind, setUTCDay_next], ?_, rfl⟩
  have hupd := updateFirst_of_split l₁ l₂ r n
    (fun x => { x with
                  scheduledDate := setUTCHoursZero (setUTCDatePlusOne r.scheduledDate)
                  status := .pending }) hall hpn
  simp only [postponeRevision, hfind]
  rw [hsplit, hupd]
  rw [find?_id_append _ _ _ _ hall (by simpa using hpn)]
  simp [setUTCDay_next]

def c1Task : Task :=
  { id := 1, user := 1, title := "calculus", notes := "", isArchived := false
    completedDate := 1704844800000
    createdAt := 1704844800000
    revisions := [ { id := 5, scheduledDate := 1704844800000
                     status := .pending, completedAt := none } ] }

/-- Witness for C1: postponing a revision scheduled at
`2024-01-10T00:00:00Z` (1704844800000) yields `2024-01-11T00:00:00Z`
(1704931200000) with status `pending`. -/
theorem postpone_anchors_on_scheduled_date_witness :
    (postponeRevision c1Task (some 5) 999).1 =
      some { success := true, newDate := 1704931200000, nextInterval := 1 }
    ∧ (postponeRevision c1Task (some 5) 999).2.revisions.find?
        (fun x => x.id == 5) =
      some { id := 5, scheduledDate := 1704931200000
             status := .pending, completedAt := none } := by
  have h := postpone_anchors_on_scheduled_date c1Task 5
    { id := 5, scheduledDate := 1704844800000, status := .pending
      completedAt := none } 999 1000 (by rfl)
  exact ⟨h.1.trans (by decide), h.2.1.trans (by decide)⟩

/-- C2: a task persisted for the first time with an empty revision list
always receives exactly two pending revisions, at `completedDate + 3` days
and `completedDate + 7` days, in that order; the hook runs inside `save`
itself, so the generation cannot be skipped by omission. -/
theorem first_save_generates_default_schedule (t : Task)
    (h : t.revisions = []) :
    saveTask true t = .ok { t with revisions :=
      [ { id := 0, scheduledDate := t.completedDate + 3 * msPerDay
          status := .pending, completedAt := none },
        { id := 1, scheduledDate := t.completedDate + 7 * msPerDay
          status := .pending, completedAt := none } ] } := by
  have hpre : preSaveAddDefaults true t = { t with revisions :=
      [ { id := 0, scheduledDate := t.completedDate + 3 * msPerDay
          status := .pending, completedAt := none },
        { id := 1, scheduledDate := t.completedDate + 7 * msPerDay
          status := .pending, completedAt := none } ] } := by
    simp [preSaveAddDefaults, h, addDefaultRevisions, setDateAddDays]
  have hval : revisionsValid { t with revisions :=
      [ { id := 0, scheduledDate := t.completedDate + 3 * msPerDay
          status := .pending, completedAt := none },
        { id := 1, scheduledDate := t.completedDate + 7 * msPerDay
          status := .pending, completedAt := none } ] } = true := by
    simp [revisionsValid, msPerDay]
  simp [saveTask, hpre, hval]

def c2Task : Task :=
  { id := 2, user := 9, title := "chapter one", notes := "", isArchived := false
    completedDate := 1704067200000
    createdAt := 1704067200000
    revisions := [] }

/-- Witness for C2 at `completedDate = 2024-01-01T00:00:00Z`: the generated
schedule is 2024-01-04 and 2024-01-08, both pending. -/
theorem first_save_generates_default_schedule_witness :
    saveTask true c2Task = .ok { c2Task with revisions :=
      [ { id := 0, scheduledDate := 1704326400000
          status := .pending, completedAt := none },
        { id := 1, scheduledDate := 1704672000000
          status := .pending, completedAt := none } ] } :=
  (first_save_generates_default_schedule c2Task rfl).trans
    (congrArg Except.ok (by decide))

/-- C5: a task write whose revision list contains a revision scheduled
strictly before `completedDate` is rejected with a `ValidationError` and
nothing is persisted; a write whose revisions are all scheduled at or after
`completedDate` (boundary equality included) succeeds, persisting the
document with its revisions untouched apart from the first-save default
hook — never clamped or dropped. -/
theorem revision_before_completion_is_validation_error (isNew : Bool)
    (t : Task) :
    ((∃ r ∈ t.revisions, r.scheduledDate < t.completedDate) →
      saveTask isNew t = .error .validationError)
    ∧ ((∀ r ∈ t.revisions, t.completedDate ≤ r.scheduledDate) →
      saveTask isNew t = .ok (preSaveAddDefaults isNew t)) := by
  constructor
  · rintro ⟨r, hr, hlt⟩
    have hemp : t.revisions.isEmpty = false := by
      cases hrev : t.revisions with
      | nil => rw [hrev] at hr; simp at hr
      | cons a l => simp
    have hpre : preSaveAddDefaults isNew t = t := by
      simp [preSaveAddDefaults, hemp]
    have hval : revisionsValid t = false := by
      rw [revisionsValid]
      rw [List.all_eq_false]
      exact ⟨r, hr, by simp; omega⟩
    simp [saveTask, hpre, hval]
  · intro hall
    have hval : revisionsValid (preSaveAddDefaults isNew t) = true := by
      by_cases hc : isNew = true ∧ t.revisions.isEmpty = true
      · simp only [preSaveAddDefaults, if_pos hc]
        simp [revisionsValid, addDefaultRevisions, setDateAddDays, msPerDay]
      · simp only [preSaveAddDefaults, if_neg hc]
        rw [revisionsValid, List.all_eq_true]
        intro r hr
        simpa using hall r hr
    simp [saveTask, hval]

def c5BadTask : Task :=
  { id := 3, user := 4, title := "too early", notes := "", isArchived := false
    completedDate := 100, createdAt := 0
    revisions := [ { id := 0, scheduledDate := 99
                     status := .pending, completedAt := none } ] }

def c5BoundaryTask : Task :=
  { id := 4, user := 4, title := "boundary", notes := "", isArchived := false
    completedDate := 100, createdAt := 0
    revisions := [ { id := 0, scheduledDate := 100
                     status := .pending, completedAt := none } ] }

/-- Witness for C5: a revision one millisecond before the completion date is
rejected; a revision scheduled exactly at the completion date is accepted
unchanged. -/
theorem revision_before_completion_is_validation_error_witness :
    saveTask true c5BadTask = .error .validationError
    ∧ saveTask false c5BoundaryTask = .ok c5BoundaryTask :=
  ⟨(revision_before_completion_is_validation_error true c5BadTask).1
      (by decide),
   ((revision_before_completion_is_validation_error false c5BoundaryTask).2
      (by decide)).trans (congrArg Except.ok (by decide))⟩

theorem updateRevisionStatus_split (t : Task) (n : Nat) (r : Revision)
    (s : RevStatus) (now : Int) (l₁ l₂ : List Revision)
    (hsplit : t.revisions = l₁ ++ r :: l₂)
    (hall : ∀ x ∈ l₁, (x.id == n) = false) (hpn : (r.id == n) = true) :
    updateRevisionStatus t (some n) s now =
      (true, { t with revisions := l₁ ++
        { r with status := s
                 completedAt := if s = .done then some now else none } :: l₂ }) := by
  have hfind : t.revisions.find? (fun x => x.id == n) = some r := by
    rw [hsplit]; exact find?_id_append _ _ _ _ hall hpn
  simp only [updateRevisionStatus, hfind]
  rw [hsplit, updateFirst_of_split _ _ _ _ _ hall hpn]

/-- C6: marking a pending revision done stamps `completedAt` with the call's
wall-clock time; re-marking the already-done revision done succeeds again,
keeps exactly one revision in state `done` (same list length, no
duplicate), and refreshes `completedAt` to the second call's timestamp;
transitioning to any status other than `done` clears `completedAt`. -/
theorem mark_done_idempotent (t : Task) (n : Nat) (r : Revision)
    (now₁ now₂ : Int)
    (hfind : t.revisions.find? (fun x => x.id == n) = some r)
    (hnodone : t.revisions.countP (fun x => x.status == RevStatus.done) = 0) :
    (updateRevisionStatus t (some n) .done now₁).1 = true
    ∧ (updateRevisionStatus t (some n) .done now₁).2.revisions.find?
        (fun x => x.id == n) =
        some { r with status := .done, completedAt := some now₁ }
    ∧ (updateRevisionStatus (updateRevisionStatus t (some n) .done now₁).2
        (some n) .done now₂).1 = true
    ∧ (updateRevisionStatus (updateRevisionStatus t (some n) .done now₁).2
        (some n) .done now₂).2.revisions.find? (fun x => x.id == n) =
        some { r with status := .done, completedAt := some now₂ }
    ∧ (updateRevisionStatus (updateRevisionStatus t (some n) .done now₁).2
        (some n) .done now₂).2.revisions.length = t.revisions.length
    ∧ (updateRevisionStatus (updateRevisionStatus t (some n) .done now₁).2
        (some n) .done now₂).2.revisions.countP
        (fun x => x.status == RevStatus.done) = 1
    ∧ (∀ s, s ≠ RevStatus.done →
        (updateRevisionStatus t (some n) s now₁).2.revisions.find?
          (fun x => x.id == n) =
          some { r with status := s, completedAt := none }) := by
  obtain ⟨l₁, l₂, hsplit, hall, hpn⟩ := find?_split _ _ _ hfind
  have h₁ := updateRevisionStatus_split t n r .done now₁ l₁ l₂ hsplit hall hpn
  have h₁' : updateRevisionStatus t (some n) .done now₁ =
      (true, { t with revisions := l₁ ++
        { r with status := .done, completedAt := some now₁ } :: l₂ }) := by
    simpa using h₁
  have hsplit₂ :
      (updateRevisionStatus t (some n) .done now₁).2.revisions =
        l₁ ++ { r with status := RevStatus.done, completedAt := some now₁ } :: l₂ := by
    rw [h₁']
  have h₂ := updateRevisionStatus_split
    (updateRevisionStatus t (some n) .done now₁).2 n
    { r with status := RevStatus.done, completedAt := some now₁ } .done now₂
    l₁ l₂ hsplit₂ hall (by simpa using hpn)
  have h₂' : updateRevisionStatus (updateRevisionStatus t (some n) .done now₁).2
      (some n) .done now₂ =
      (true, { (updateRevisionStatus t (some n) .done now₁).2 with revisions :=
        l₁ ++ { r with status := .done, completedAt := some now₂ } :: l₂ }) := by
    simpa using h₂
  have hcounts : l₁.countP (fun x => x.status == RevStatus.done) = 0
      ∧ l₂.countP (fun x => x.status == RevStatus.done) = 0 := by
    rw [hsplit] at hnodone
    simp only [List.countP_append, List.countP_cons] at hnodone
    omega
  refine ⟨by rw [h₁'], ?_, by rw [h₂'], ?_, ?_, ?_, ?_⟩
  · rw [h₁']
    exact find?_id_append _ _ _ _ hall (by simpa using hpn)
  · rw [h₂']
    exact find?_id_append _ _ _ _ hall (by simpa using hpn)
  · rw [h₂', hsplit]
    simp
  · rw [h₂']
    simp only [List.countP_append, List.countP_cons]
    have : (({ r with status := RevStatus.done, completedAt := some now₂ } :
        Revision).status == RevStatus.done) = true := by rfl
    simp [hcounts.1, hcounts.2, this]
  · intro s hs
    have h₃ := updateRevisionStatus_split t n r s now₁ l₁ l₂ hsplit hall hpn
    have h₃' : updateRevisionStatus t (some n) s now₁ =
        (true, { t with revisions := l₁ ++
          { r with status := s, completedAt := none } :: l₂ }) := by
      simpa [hs] using h₃
    rw [h₃']
    exact find?_id_append _ _ _ _ hall (by simpa using hpn)

def c6Task : Task :=
  { id := 6, user := 2, title := "verbs", notes := "", isArchived := false
    completedDate := 0, createdAt := 0
    revisions := [ { id := 1, scheduledDate := 259200000
                     status := .pending, completedAt := none },
                   { id := 2, scheduledDate := 604800000
                     status := .pending, completedAt := none } ] }

/-- Witness for C6: double-completing revision 1 of a two-revision task
leaves one `done` revision stamped with the second timestamp; skipping it
instead leaves `completedAt` empty. -/
theorem mark_done_idempotent_witness :
    (updateRevisionStatus c6Task (some 1) .done 5000).1 = true
    ∧ (updateRevisionStatus (updateRevisionStatus c6Task (some 1) .done 5000).2
        (some 1) .done 7000).2.revisions.countP
        (fun x => x.status == RevStatus.done) = 1
    ∧ (updateRevisionStatus (updateRevisionStatus c6Task (some 1) .done 5000).2
        (some 1) .done 7000).2.revisions.find? (fun x => x.id == 1) =
      some { id := 1, scheduledDate := 259200000
             status := .done, completedAt := some 7000 }
    ∧ (updateRevisionStatus c6Task (some 1) .skipped 5000).2.revisions.find?
        (fun x => x.id == 1) =
      some { id := 1, scheduledDate := 259200000
             status := .skipped, completedAt := none } := by
  have h := mark_done_idempotent c6Task 1
    { id := 1, scheduledDate := 259200000, status := .pending
      completedAt := none } 5000 7000 (by rfl) (by rfl)
  exact ⟨h.1, h.2.2.2.2.2.1,
    h.2.2.2.1.trans (by decide),
    (h.2.2.2.2.2.2 .skipped (by decide)).trans (by decide)⟩

/-- C9: a status transition or postpone that targets a revision id absent
from the task — a well-formed but unknown id or a malformed one — returns
the not-found failure at the model layer and a `Revision not found` response
at the endpoint, and the parent task, every other revision included, is
returned completely unchanged with nothing saved. -/
theorem missing_revision_id_leaves_task_unchanged (t : Task)
    (rid : Option Nat) (s : RevStatus) (st : Option RevStatus) (now : Int)
    (h : lookupRevision t rid = none) :
    updateRevisionStatus t rid s now = (false, t)
    ∧ postponeRevision t rid now = (none, t)
    ∧ markRevisionCompleteEndpoint t rid st now = .revisionNotFound := by
  have h' : ∀ n, rid = some n →
      t.revisions.find? (fun x => x.id == n) = none := by
    intro n hn
    rw [hn] at h
    simpa [lookupRevision] using h
  have hupd : ∀ s', updateRevisionStatus t rid s' now = (false, t) := by
    intro s'
    cases rid with
    | none => rfl
    | some n => simp [updateRevisionStatus, h' n rfl]
  have hpost : postponeRevision t rid now = (none, t) := by
    cases rid with
    | none => rfl
    | some n => simp [postponeRevision, h' n rfl]
  refine ⟨hupd s, hpost, ?_⟩
  by_cases hst : st = some RevStatus.postponed
  · simp [markRevisionCompleteEndpoint, hst, hpost]
  · simp [markRevisionCompleteEndpoint, hst, hupd]

def c9Task : Task :=
  { id := 7, user := 3, title := "maps", notes := "", isArchived := false
    completedDate := 0, createdAt := 0
    revisions := [ { id := 1, scheduledDate := 259200000
                     status := .pending, completedAt := none } ] }

/-- Witness for C9: an unknown id (99) and a malformed id (`none`) both fail
without touching the task; the endpoint answers `Revision not found` even
for a postpone request. -/
theorem missing_revision_id_leaves_task_unchanged_witness :
    updateRevisionStatus c9Task (some 99) .done 1 = (false, c9Task)
    ∧ postponeRevision c9Task none 1 = (none, c9Task)
    ∧ markRevisionCompleteEndpoint c9Task (some 99) (some .postponed) 1 =
        .revisionNotFound
    ∧ markRevisionCompleteEndpoint c9Task none none 1 = .revisionNotFound := by
  have h₁ := missing_revision_id_leaves_task_unchanged c9Task (some 99) .done
    (some .postponed) 1 (by rfl)
  have h₂ := missing_revision_id_leaves_task_unchanged c9Task none .done
    none 1 (by rfl)
  exact ⟨h₁.1, h₂.2.1, h₁.2.2, h₂.2.2⟩

/-- C3 (amended): `getDayBoundsInTimezone` returns the *server-zone*
midnight-to-midnight pair of the target zone's local calendar date — start
`= floor_day(t + off) - srv` — so the bounds coincide with the
local-midnight instants the claim describes exactly when the server's own
offset equals the target zone's offset. -/
theorem dayBounds_are_server_zone_midnights (srv off t : Int) :
    getDayBoundsInTimezone srv t (some off) =
      .ok (floorToUnit msPerDay (t + off) - srv,
           floorToUnit msPerDay (t + off) - srv + (msPerDay - 1))
    ∧ (getDayBoundsInTimezone srv t (some off) = .ok (specDayBounds t off) ↔
        srv = off) := by
  have hmain : getDayBoundsInTimezone srv t (some off) =
      .ok (floorToUnit msPerDay (t + off) - srv,
           floorToUnit msPerDay (t + off) - srv + (msPerDay - 1)) := by
    have hcancel : floorToUnit msPerSecond (t + off) - srv + srv =
        floorToUnit msPerSecond (t + off) := by omega
    simp only [getDayBoundsInTimezone, toLocaleStringReparse, setHoursZero,
      Except.bind, bind, pure, hcancel, floorToUnit_second_then_day,
      Except.pure]
  refine ⟨hmain, ?_⟩
  rw [hmain]
  simp only [specDayBounds, Except.ok.injEq, Prod.mk.injEq, floorToUnit,
    msPerDay, msPerSecond]
  omega

/-- Counterexample for C3: on a UTC server (`srv = 0`), an instant whose
Kolkata-local date is 2024-06-15 gets the bounds
`[2024-06-15T00:00:00Z, 2024-06-15T23:59:59.999Z]`, not the claimed
`[2024-06-14T18:30:00Z, 2024-06-15T18:29:59.999Z]`; symmetrically, on a
Kolkata server the `UTC` zone gets shifted bounds.  The claimed
frame-independent result is `specDayBounds`. -/
theorem dayBounds_counterexample :
    getDayBoundsInTimezone 0 1718409600000 (some istOffsetMs) =
      .ok (1718409600000, 1718495999999)
    ∧ specDayBounds 1718409600000 istOffsetMs = (1718389800000, 1718476199999)
    ∧ getDayBoundsInTimezone 19800000 1718452800000 (some 0) =
      .ok (1718389800000, 1718476199999)
    ∧ specDayBounds 1718452800000 0 = (1718409600000, 1718495999999)
    ∧ ((1718409600000 : Int), (1718495999999 : Int)) ≠
        (1718389800000, 1718476199999) :=
  ⟨by rfl, by rfl, by rfl, by rfl, by decide⟩

/-- C4 (amended): an unknown/malformed timezone makes the timezone helpers
throw; `getTodaysRevisions` catches any such error and returns the empty
list — it does not retry under the configured default zone (the default
applies only when no timezone is supplied at all) — while in the reminder
loop the throw from the local-hour check is caught per user, counted as that
user's error, and the rest of the batch is processed exactly as it would
have been without that user. -/
theorem invalid_timezone_swallowed_and_batch_continues
    (srv hr now t : Int)
    (fetch₀ : Int → Int → Except String (List (Task × Revision)))
    (fetch : CronUser → Int → Int → Except String (List (Task × Revision)))
    (dispatch : CronUser → List DueRevision → Except String Unit)
    (u : CronUser) (post : List CronUser)
    (hu : u.timezone = some none) :
    getDayBoundsInTimezone srv t none = .error invalidTimeZoneMsg
    ∧ isTargetHourInTimezone srv hr none now = .error invalidTimeZoneMsg
    ∧ getTodaysRevisions srv now none fetch₀ = []
    ∧ processUser srv now fetch dispatch u = .errored
    ∧ runUsers srv now fetch dispatch (u :: post) =
        { runUsers srv now fetch dispatch post with
          errors := (runUsers srv now fetch dispatch post).errors + 1 } := by
  have hproc : processUser srv now fetch dispatch u = .errored := by
    simp [processUser, hu, isTargetHourInTimezone, getCurrentTimeInTimezone,
      toLocaleStringReparse]
  exact ⟨rfl, rfl, rfl, hproc, by simp [runUsers, hproc]⟩

def c4Task : Task :=
  { id := 3, user := 7, title := "algebra", notes := "", isArchived := false
    completedDate := 0, createdAt := 0
    revisions := [ { id := 0, scheduledDate := 21600000
                     status := .pending, completedAt := none } ] }

/-- Counterexample for C4: with an invalid timezone the resolver returns the
empty list even though the same user has a revision due under the configured
default zone (`Asia/Kolkata`): no fallback to the default zone happens. -/
theorem invalid_timezone_no_fallback_counterexample :
    getTodaysRevisions 0 21600000 none (storeFetch [c4Task] 7) = []
    ∧ getTodaysRevisions 0 21600000 (some istOffsetMs)
        (storeFetch [c4Task] 7) ≠ [] :=
  ⟨by rfl, by decide⟩

def c4BadUser : CronUser :=
  { id := 11, isVerified := true, emailNotifications := true
    timezone := some none }

def c4GoodUser : CronUser :=
  { id := 12, isVerified := true, emailNotifications := true
    timezone := some (some 0) }

/-- Witness for C4's amended theorem at concrete inputs. -/
theorem invalid_timezone_swallowed_witness :
    getDayBoundsInTimezone 0 21600000 none = .error invalidTimeZoneMsg
    ∧ isTargetHourInTimezone 0 6 none 21600000 = .error invalidTimeZoneMsg
    ∧ getTodaysRevisions 0 21600000 none (storeFetch [c4Task] 7) = []
    ∧ processUser 0 21600000 (fun u => storeFetch [c4Task] u.id)
        (fun _ _ => .ok ()) c4BadUser = .errored
    ∧ runUsers 0 21600000 (fun u => storeFetch [c4Task] u.id)
        (fun _ _ => .ok ()) [c4BadUser, c4GoodUser] =
        { runUsers 0 21600000 (fun u => storeFetch [c4Task] u.id)
            (fun _ _ => .ok ()) [c4GoodUser] with
          errors := (runUsers 0 21600000 (fun u => storeFetch [c4Task] u.id)
            (fun _ _ => .ok ()) [c4GoodUser]).errors + 1 } :=
  invalid_timezone_swallowed_and_batch_continues 0 6 21600000 21600000
    (storeFetch [c4Task] 7) (fun u => storeFetch [c4Task] u.id)
    (fun _ _ => .ok ()) c4BadUser [c4GoodUser] rfl

/-- C7: the cron-path due set is the date-and-status filtered pairs, each
projected through the ordinal bucketing of
`ceil((scheduledDate - completedDate) / oneDay)` with thresholds
`≤3 → 1, ≤7 → 2, ≤14 → 3, ≤30 → 4, else 5` and
`isFirstRevision = (ordinal = 1)`; membership in the due set is
characterized without any reference to the ordinal, and a revision exactly
3 days after completion buckets to 1 while exactly 4 days buckets to 2. -/
theorem ordinal_bucketing_display_only (srv now off : Int)
    (tasks : List Task) (userId : Nat) (s e : Int)
    (hbounds : getDayBoundsInTimezone srv now (some off) = .ok (s, e)) :
    getTodaysRevisions srv now (some off) (storeFetch tasks userId) =
      (aggregateDueRevisions tasks userId s e).map
        (fun p => toDueRevision p.1 p.2)
    ∧ (∀ t r, ((t, r) ∈ aggregateDueRevisions tasks userId s e ↔
        t ∈ tasks ∧ t.user = userId ∧ t.isArchived = false ∧ r ∈ t.revisions
          ∧ s ≤ r.scheduledDate ∧ r.scheduledDate ≤ e
          ∧ r.status = .pending))
    ∧ (∀ t r, (toDueRevision t r).revisionDay =
          revisionDayBucket (daysDiff t.completedDate r.scheduledDate)
        ∧ ((toDueRevision t r).isFirstRevision = true ↔
            (toDueRevision t r).revisionDay = 1))
    ∧ (∀ c : Int, daysDiff c (c + 3 * msPerDay) = 3
        ∧ daysDiff c (c + 4 * msPerDay) = 4
        ∧ revisionDayBucket (daysDiff c (c + 3 * msPerDay)) = 1
        ∧ revisionDayBucket (daysDiff c (c + 4 * msPerDay)) = 2) := by
  refine ⟨?_, ?_, ?_, ?_⟩
  · have hbody : getTodaysRevisionsBody srv now (some off)
        (storeFetch tasks userId) =
        Except.ok ((aggregateDueRevisions tasks userId s e).map
          (fun p => toDueRevision p.1 p.2)) := by
      simp only [getTodaysRevisionsBody, hbounds, storeFetch, Except.bind,
        bind, pure, Except.pure]
    simp [getTodaysRevisions, hbody]
  · intro t r
    simp only [aggregateDueRevisions, List.mem_flatMap, List.mem_filter,
      List.mem_map, revisionDueFilter, Bool.and_eq_true, beq_iff_eq,
      decide_eq_true_eq, Prod.mk.injEq]
    aesop
  · intro t r
    exact ⟨rfl, by simp [toDueRevision, beq_iff_eq]⟩
  · intro c
    have h3 : daysDiff c (c + 3 * msPerDay) = 3 := by
      simp only [daysDiff, msPerDay]; omega
    have h4 : daysDiff c (c + 4 * msPerDay) = 4 := by
      simp only [daysDiff, msPerDay]; omega
    exact ⟨h3, h4, by rw [h3]; decide, by rw [h4]; decide⟩

def c7Tasks : List Task :=
  [ { id := 30, user := 7, title := "limits", notes := "epsilon-delta"
      isArchived := false
      completedDate := 1718150400000, createdAt := 1718150400000
      revisions := [ { id := 4, scheduledDate := 1718409600000
                       status := .pending, completedAt := none } ] } ]

/-- Witness for C7: a revision scheduled exactly 3 days after completion is
resolved with ordinal 1 and `isFirstRevision = true`; exactly 4 days after
completion buckets to ordinal 2. -/
theorem ordinal_bucketing_display_only_witness :
    getTodaysRevisions 0 1718409600000 (some istOffsetMs)
      (storeFetch c7Tasks 7) =
      [ { taskId := 30, taskTitle := "limits", taskDescription := "epsilon-delta"
          taskCreatedAt := 1718150400000, revisionId := 4, revisionDay := 1
          scheduledDate := 1718409600000, isFirstRevision := true } ]
    ∧ revisionDayBucket (daysDiff 0 (3 * msPerDay)) = 1
    ∧ revisionDayBucket (daysDiff 0 (4 * msPerDay)) = 2 := by
  have h := ordinal_bucketing_display_only 0 1718409600000 istOffsetMs
    c7Tasks 7 1718409600000 1718495999999 (by rfl)
  exact ⟨h.1.trans (by decide),
    by simpa using (h.2.2.2 0).2.2.1,
    by simpa using (h.2.2.2 0).2.2.2⟩

/-- C8: in one daily-reminder run over the eligible users in order, a
failure while processing one user is caught and counted as exactly one
error, and every user after the failing one is still fully processed — when
everyone else's dispatch succeeds, the run reports one error and the
dispatch trace contains precisely all the other users, in order. -/
theorem one_user_failure_is_isolated (srv now : Int)
    (fetch : CronUser → Int → Int → Except String (List (Task × Revision)))
    (dispatch : CronUser → List DueRevision → Except String Unit)
    (users pre post : List CronUser) (a : CronUser)
    (helig : eligibleUsers users = pre ++ a :: post)
    (ha : processUser srv now fetch dispatch a = .errored)
    (hpre : ∀ u ∈ pre, processUser srv now fetch dispatch u = .sent)
    (hpost : ∀ u ∈ post, processUser srv now fetch dispatch u = .sent) :
    sendDailyReminders srv now fetch dispatch users =
      { remindersSent := pre.length + post.length
        errors := 1
        sentTo := (pre.map fun u => u.id) ++ (post.map fun u => u.id) } := by
  rw [sendDailyReminders, helig, runUsers_append]
  rw [runUsers_all_sent srv now fetch dispatch pre hpre]
  have hcons : runUsers srv now fetch dispatch (a :: post) =
      { remindersSent := post.length, errors := 1
        sentTo := post.map fun u => u.id } := by
    simp [runUsers, ha, runUsers_all_sent srv now fetch dispatch post hpost]
  rw [hcons]
  simp

def c8u0 : CronUser :=
  { id := 0, isVerified := true, emailNotifications := true
    timezone := some (some 0) }

def c8u1 : CronUser :=
  { id := 1, isVerified := true, emailNotifications := true
    timezone := some (some 0) }

def c8u2 : CronUser :=
  { id := 2, isVerified := true, emailNotifications := true
    timezone := some (some 0) }

def c8Tasks : List Task :=
  [ { id := 100, user := 0, title := "t0", notes := "", isArchived := false
      completedDate := 0, createdAt := 0
      revisions := [ { id := 0, scheduledDate := 21600000
                       status := .pending, completedAt := none } ] },
    { id := 101, user := 1, title := "t1", notes := "", isArchived := false
      completedDate := 0, createdAt := 0
      revisions := [ { id := 0, scheduledDate := 21600000
                       status := .pending, completedAt := none } ] },
    { id := 102, user := 2, title := "t2", notes := "", isArchived := false
      completedDate := 0, createdAt := 0
      revisions := [ { id := 0, scheduledDate := 21600000
                       status := .pending, completedAt := none } ] } ]

def c8Fetch : CronUser → Int → Int → Except String (List (Task × Revision)) :=
  fun u => storeFetch c8Tasks u.id

def c8Dispatch : CronUser → List DueRevision → Except String Unit :=
  fun u _ => if u.id == 1 then .error "SMTP connection refused" else .ok ()

/-- Witness for C8: three eligible users at their 6 AM tick, dispatch fails
for the middle one; the run sends to users 0 and 2 and reports one error. -/
theorem one_user_failure_is_isolated_witness :
    sendDailyReminders 0 21600000 c8Fetch c8Dispatch [c8u0, c8u1, c8u2] =
      { remindersSent := 2, errors := 1, sentTo := [0, 2] } := by
  have h := one_user_failure_is_isolated 0 21600000 c8Fetch c8Dispatch
    [c8u0, c8u1, c8u2] [c8u0] [c8u2] c8u1 (by decide) (by decide) (by decide)
    (by decide)
  exact h.trans (by decide)

/-- C10: an error raised inside the cron-path due-set computation (an
invalid timezone, or the storage aggregation rejecting) is caught by
`getTodaysRevisions`, which returns the empty list instead of propagating
it; in the orchestrator such a user therefore looks identical to a user with
zero due revisions — skipped silently, no dispatch, the error counter
untouched, and the run over the remaining users unchanged. -/
theorem failed_due_set_resolution_is_silent_skip (srv now : Int)
    (tz : Option Int)
    (fetch₀ : Int → Int → Except String (List (Task × Revision)))
    (msg : String)
    (fetch : CronUser → Int → Int → Except String (List (Task × Revision)))
    (dispatch : CronUser → List DueRevision → Except String Unit)
    (u : CronUser) (pre post : List CronUser)
    (herr : getTodaysRevisionsBody srv now tz fetch₀ = .error msg)
    (hskip : processUser srv now fetch dispatch u = .emptySkip) :
    getTodaysRevisions srv now tz fetch₀ = []
    ∧ (∀ (u' : CronUser) (off s e : Int) (msg' : String),
        u'.timezone = some (some off) →
        getDayBoundsInTimezone srv now (some off) = .ok (s, e) →
        fetch u' s e = .error msg' →
        isTargetHourInTimezone srv 6 (some off) now = .ok true →
        processUser srv now fetch dispatch u' = .emptySkip)
    ∧ runUsers srv now fetch dispatch (pre ++ u :: post) =
        runUsers srv now fetch dispatch (pre ++ post) := by
  refine ⟨?_, ?_, ?_⟩
  · simp [getTodaysRevisions, herr]
  · intro u' off s e msg' htz hb hf hhour
    have hbody : getTodaysRevisionsBody srv now (some off) (fetch u') =
        .error msg' := by
      simp only [getTodaysRevisionsBody, hb, Except.bind, bind, hf]
    have hres : getTodaysRevisions srv now (some off) (fetch u') = [] := by
      simp [getTodaysRevisions, hbody]
    simp [processUser, htz, hhour, hres]
  · rw [runUsers_append, runUsers_append]
    have hu : runUsers srv now fetch dispatch (u :: post) =
        runUsers srv now fetch dispatch post := by
      simp [runUsers, hskip]
    rw [hu]

def c10FailFetch : Int → Int → Except String (List (Task × Revision)) :=
  fun _ _ => .error "MongoNetworkError: connection timed out"

def c10User : CronUser :=
  { id := 21, isVerified := true, emailNotifications := true
    timezone := some (some 0) }

def c10Other : CronUser :=
  { id := 22, isVerified := true, emailNotifications := true
    timezone := some (some 0) }

/-- Witness for C10: with the aggregation rejecting, the resolver returns
the empty list and the run over `[c10User, c10Other]` equals the run over
`[c10Other]` alone — no error counted for the failed resolution. -/
theorem failed_due_set_resolution_is_silent_skip_witness :
    getTodaysRevisions 0 21600000 (some 0) c10FailFetch = []
    ∧ runUsers 0 21600000 (fun _ => c10FailFetch) (fun _ _ => .ok ())
        [c10User, c10Other] =
      runUsers 0 21600000 (fun _ => c10FailFetch) (fun _ _ => .ok ())
        [c10Other] := by
  have h := failed_due_set_resolution_is_silent_skip 0 21600000 (some 0)
    c10FailFetch "MongoNetworkError: connection timed out"
    (fun _ => c10FailFetch) (fun _ _ => .ok ()) c10User [] [c10Other]
    (by rfl) (by decide)
  exact ⟨h.1, h.2.2⟩

end ReviseFlow
